import Mathlib

/-!
Shallow embedding of the cortex frontend graph-visualization core:
the data model (GraphNode, GraphEdge, GraphData from the API client),
the circular layout effect, the canvas render pass, the click hit-test
and selection state of GraphVisualizer, and the query-cache
configurations of the useAgent hooks.  Random jitter (Math.random) is
modelled as an explicit function parameter; canvas drawing is modelled
as a list of draw commands.
-/

/-- A 2-D position on the canvas, as in the Position interface. -/
structure Position where
  x : ℝ
  y : ℝ

/-- A graph node as in the GraphNode interface of the API client:
id, type (kind string), label, optional data record. -/
structure GraphNode where
  id : String
  type : String
  label : String
  data : Option (List (String × String)) := none

/-- A graph edge as in the GraphEdge interface: source id, target id, type. -/
structure GraphEdge where
  source : String
  target : String
  type : String

/-- The GraphData payload: node list and edge list, in fetched order. -/
structure GraphData where
  nodes : List GraphNode
  edges : List GraphEdge

/-- The node-position map held in component state (a JS Map from id to
Position), modelled as a lookup function. -/
def PositionMap : Type := String → Option Position

/-- The initial empty Map state. -/
def emptyPositions : PositionMap := fun _ => none

/-- JS Map.set: later writes overwrite earlier ones at the same key. -/
def mapSet (m : PositionMap) (k : String) (v : Position) : PositionMap :=
  fun q => if q = k then some v else m q

/-- Canvas width, 800. -/
def canvasWidth : ℝ := 800

/-- Canvas height, 600. -/
def canvasHeight : ℝ := 600

/-- centerX = width / 2 as computed in the layout effect. -/
noncomputable def centerX : ℝ := canvasWidth / 2

/-- centerY = height / 2 as computed in the layout effect. -/
noncomputable def centerY : ℝ := canvasHeight / 2

/-- Position of the node at index i among n nodes, exactly as the layout
effect computes it: angle = (i / n) * 2π, radius = 150 + rand i * 100
where rand i models the Math.random() draw for node i, and
(x, y) = (centerX + radius * cos angle, centerY + radius * sin angle). -/
noncomputable def nodePos (n : ℕ) (rand : ℕ → ℝ) (i : ℕ) : Position :=
  let angle : ℝ := ((i : ℝ) / (n : ℝ)) * (2 * Real.pi)
  let radius : ℝ := 150 + rand i * 100
  ⟨centerX + radius * Real.cos angle, centerY + radius * Real.sin angle⟩

/-- The forEach loop of the layout effect: walk the node list with its
running index, Map.set-ting each node's position. -/
noncomputable def layoutLoop (n : ℕ) (rand : ℕ → ℝ) :
    List GraphNode → ℕ → PositionMap → PositionMap
  | [], _, m => m
  | node :: rest, i, m =>
      layoutLoop n rand rest (i + 1) (mapSet m node.id (nodePos n rand i))

/-- The whole layout computation on a node list: start from a fresh Map
and index 0, with n = nodes.length. -/
noncomputable def layoutPositions (nodes : List GraphNode) (rand : ℕ → ℝ) :
    PositionMap :=
  layoutLoop nodes.length rand nodes 0 emptyPositions

/-- The layout effect as it acts on component state: the guard
`if (!graphData?.nodes.length) return;` leaves the previous position map
untouched when the snapshot has no nodes; otherwise the positions are
recomputed from scratch. -/
noncomputable def updatePositions (g : GraphData) (old : PositionMap)
    (rand : ℕ → ℝ) : PositionMap :=
  if g.nodes.length = 0 then old else layoutPositions g.nodes rand

-- Helper lemmas about mapSet and the layout loop.

theorem mapSet_same (m : PositionMap) (k : String) (v : Position) :
    mapSet m k v k = some v := by
  simp [mapSet]

theorem mapSet_other (m : PositionMap) (k q : String) (v : Position)
    (h : q ≠ k) : mapSet m k v q = m q := by
  simp [mapSet, h]

theorem layoutLoop_not_mem (n : ℕ) (rand : ℕ → ℝ) :
    ∀ (nodes : List GraphNode) (i : ℕ) (m : PositionMap) (k : String),
      k ∉ nodes.map GraphNode.id → layoutLoop n rand nodes i m k = m k := by
  intro nodes
  induction nodes with
  | nil => intro i m k _; rfl
  | cons node rest ih =>
      intro i m k hk
      simp only [List.map_cons, List.mem_cons, not_or] at hk
      rw [layoutLoop, ih _ _ _ hk.2, mapSet_other _ _ _ _ hk.1]

theorem layoutLoop_isSome (n : ℕ) (rand : ℕ → ℝ) :
    ∀ (nodes : List GraphNode) (i : ℕ) (m : PositionMap) (k : String),
      (layoutLoop n rand nodes i m k).isSome ↔
        k ∈ nodes.map GraphNode.id ∨ (m k).isSome := by
  intro nodes
  induction nodes with
  | nil => intro i m k; simp [layoutLoop]
  | cons node rest ih =>
      intro i m k
      rw [layoutLoop, ih]
      by_cases hk : k = node.id
      · subst hk
        simp [mapSet_same]
      · rw [mapSet_other _ _ _ _ hk]
        simp [hk]

theorem layoutLoop_get (n : ℕ) (rand : ℕ → ℝ) :
    ∀ (nodes : List GraphNode) (i₀ : ℕ) (m : PositionMap),
      (nodes.map GraphNode.id).Nodup →
      ∀ (j : ℕ) (hj : j < nodes.length),
        layoutLoop n rand nodes i₀ m (nodes.get ⟨j, hj⟩).id =
          some (nodePos n rand (i₀ + j)) := by
  intro nodes
  induction nodes with
  | nil => intro i₀ m _ j hj; exact absurd hj (Nat.not_lt_zero j)
  | cons node rest ih =>
      intro i₀ m hdup j hj
      simp only [List.map_cons, List.nodup_cons] at hdup
      match j with
      | 0 =>
          rw [layoutLoop]
          show layoutLoop n rand rest (i₀ + 1) _ node.id = _
          rw [layoutLoop_not_mem n rand rest _ _ _ hdup.1, mapSet_same]
          rw [Nat.add_zero]
      | Nat.succ j' =>
          rw [layoutLoop]
          have hj' : j' < rest.length := Nat.lt_of_succ_lt_succ hj
          show layoutLoop n rand rest (i₀ + 1) _ (rest.get ⟨j', hj'⟩).id = _
          rw [ih (i₀ + 1) _ hdup.2 j' hj']
          have harith : i₀ + 1 + j' = i₀ + Nat.succ j' := by omega
          rw [harith]

/-- C1: for every snapshot with at least one node and distinct node ids,
and for every possible jitter draw rand with each rand i in [0, 1)
(so jitter = rand i * 100 lies in [0, 100)), the layout assigns a
position exactly to the snapshot's node ids; the node at 0-based index j
gets nodePos, whose radius 150 + rand j * 100 lies in [150, 250), whose
angle equals 2π·j/n, and whose coordinates are
(centerX + radius·cos(angle), centerY + radius·sin(angle)) with
centerX = 400 and centerY = 300. -/
theorem layout_assigns_ring_positions (nodes : List GraphNode)
    (rand : ℕ → ℝ) (hn : 1 ≤ nodes.length)
    (hdup : (nodes.map GraphNode.id).Nodup)
    (hrand : ∀ i, 0 ≤ rand i ∧ rand i < 1) :
    (∀ k, (layoutPositions nodes rand k).isSome ↔ k ∈ nodes.map GraphNode.id)
    ∧ (∀ (j : ℕ) (hj : j < nodes.length),
        layoutPositions nodes rand (nodes.get ⟨j, hj⟩).id =
          some (nodePos nodes.length rand j))
    ∧ (∀ i, (150 : ℝ) ≤ 150 + rand i * 100 ∧ 150 + rand i * 100 < 250)
    ∧ (∀ i, nodePos nodes.length rand i =
        ⟨centerX + (150 + rand i * 100) *
            Real.cos (2 * Real.pi * i / nodes.length),
         centerY + (150 + rand i * 100) *
            Real.sin (2 * Real.pi * i / nodes.length)⟩)
    ∧ centerX = 400 ∧ centerY = 300 := by
  refine ⟨?_, ?_, ?_, ?_, ?_, ?_⟩
  · intro k
    rw [layoutPositions, layoutLoop_isSome]
    simp [emptyPositions]
  · intro j hj
    rw [layoutPositions, layoutLoop_get nodes.length rand nodes 0
      emptyPositions hdup j hj, Nat.zero_add]
  · intro i
    constructor
    · nlinarith [(hrand i).1]
    · nlinarith [(hrand i).2]
  · intro i
    have harg : ((i : ℝ) / (nodes.length : ℝ)) * (2 * Real.pi) =
        2 * Real.pi * (i : ℝ) / (nodes.length : ℝ) := by ring
    rw [nodePos]
    simp only [harg]
  · rw [centerX, canvasWidth]; norm_num
  · rw [centerY, canvasHeight]; norm_num

/-- A sample node used by concrete witnesses. -/
def wNode : GraphNode := ⟨"a", "Thought", "A", none⟩

/-- Witness for C1: the single-node snapshot with zero jitter gets its
position assigned at index 0. -/
theorem layout_assigns_ring_positions_witness :
    layoutPositions [wNode] (fun _ => 0)
        (([wNode].get ⟨0, Nat.one_pos⟩).id) =
      some (nodePos [wNode].length (fun _ => 0) 0) :=
  (layout_assigns_ring_positions [wNode] (fun _ => 0) (by norm_num)
    (by simp) (fun i => by norm_num)).2.1 0 Nat.one_pos

/-- Euclidean distance from the click point (x, y) to a node position,
as handleClick computes it: sqrt(dx*dx + dy*dy). -/
noncomputable def distance (x y : ℝ) (p : Position) : ℝ :=
  Real.sqrt ((x - p.x) * (x - p.x) + (y - p.y) * (y - p.y))

/-- The hit-test loop of handleClick: walk the snapshot's nodes in
order, skip a node whose id has no position in the Map (continue), and
return the first node whose distance from the click point is < 15,
stopping there; return none if no node matches. -/
noncomputable def findClickedNode :
    List GraphNode → PositionMap → ℝ → ℝ → Option String
  | [], _, _, _ => none
  | node :: rest, pos, x, y =>
      match pos node.id with
      | none => findClickedNode rest pos x y
      | some p =>
          if distance x y p < 15 then some node.id
          else findClickedNode rest pos x y

theorem findClickedNode_cons_nopos (node : GraphNode)
    (rest : List GraphNode) (pos : PositionMap) (x y : ℝ)
    (hpos : pos node.id = none) :
    findClickedNode (node :: rest) pos x y = findClickedNode rest pos x y := by
  rw [findClickedNode, hpos]

theorem findClickedNode_cons_pos (node : GraphNode)
    (rest : List GraphNode) (pos : PositionMap) (x y : ℝ) (p : Position)
    (hpos : pos node.id = some p) :
    findClickedNode (node :: rest) pos x y =
      if distance x y p < 15 then some node.id
      else findClickedNode rest pos x y := by
  rw [findClickedNode, hpos]

/-- The selection update of handleClick: a hit on the currently selected
node toggles the selection off, a hit on another node selects it, and a
miss clears the selection. -/
noncomputable def handleClick (nodes : List GraphNode) (pos : PositionMap)
    (selected : Option String) (x y : ℝ) : Option String :=
  match findClickedNode nodes pos x y with
  | some nid => if selected = some nid then none else some nid
  | none => none

/-- C2: the hit-test returns nid exactly when the snapshot's node list
splits as pre ++ node :: post where node's id is nid, node has a
position at Euclidean distance < 15 from the click point, and every
earlier node either has no position or sits at distance ≥ 15; in
particular the hit is the first match in snapshot order, nodes without
positions are skipped, iteration stops at the hit, and no node at
distance ≥ 15 from the click point is ever the hit. -/
theorem findClickedNode_first_match (nodes : List GraphNode)
    (pos : PositionMap) (x y : ℝ) (nid : String) :
    findClickedNode nodes pos x y = some nid ↔
      ∃ (pre : List GraphNode) (node : GraphNode) (post : List GraphNode),
        nodes = pre ++ node :: post ∧ node.id = nid
        ∧ (∃ p, pos node.id = some p ∧ distance x y p < 15)
        ∧ ∀ prev ∈ pre, ∀ q, pos prev.id = some q → ¬ distance x y q < 15 := by
  induction nodes with
  | nil =>
      simp [findClickedNode]
  | cons node rest ih =>
      constructor
      · intro hfind
        cases hpos : pos node.id with
        | none =>
            rw [findClickedNode_cons_nopos node rest pos x y hpos] at hfind
            obtain ⟨pre, nd, post, hsplit, hid, hhit, hprev⟩ := ih.mp hfind
            refine ⟨node :: pre, nd, post, by rw [hsplit]; rfl, hid, hhit, ?_⟩
            intro prev hprev₂ q hq
            rcases List.mem_cons.mp hprev₂ with heq | hmem
            · subst heq; rw [hpos] at hq; exact absurd hq (by simp)
            · exact hprev prev hmem q hq
        | some p =>
            rw [findClickedNode_cons_pos node rest pos x y p hpos] at hfind
            by_cases hd : distance x y p < 15
            · rw [if_pos hd] at hfind
              refine ⟨[], node, rest, rfl, ?_, ⟨p, hpos, hd⟩, ?_⟩
              · exact (Option.some.injEq _ _).mp hfind
              · intro prev hprev
                exact absurd hprev (List.not_mem_nil prev)
            · rw [if_neg hd] at hfind
              obtain ⟨pre, nd, post, hsplit, hid, hhit, hprev⟩ := ih.mp hfind
              refine ⟨node :: pre, nd, post, by rw [hsplit]; rfl, hid, hhit, ?_⟩
              intro prev hprev₂ q hq
              rcases List.mem_cons.mp hprev₂ with heq | hmem
              · subst heq
                rw [hpos] at hq
                rw [(Option.some.injEq _ _).mp hq] at hd
                exact hd
              · exact hprev prev hmem q hq
      · rintro ⟨pre, nd, post, hsplit, hid, ⟨p, hp, hd⟩, hprev⟩
        cases pre with
        | nil =>
            simp only [List.nil_append] at hsplit
            have hnode : node = nd := ((List.cons.injEq _ _ _ _).mp hsplit).1
            subst hnode
            rw [findClickedNode_cons_pos node rest pos x y p hp,
              if_pos hd, hid]
        | cons a pre₂ =>
            simp only [List.cons_append] at hsplit
            have hnode : node = a := ((List.cons.injEq _ _ _ _).mp hsplit).1
            have hrest : rest = pre₂ ++ nd :: post :=
              ((List.cons.injEq _ _ _ _).mp hsplit).2
            subst hnode
            have htail : findClickedNode rest pos x y = some nid := by
              apply ih.mpr
              refine ⟨pre₂, nd, post, hrest, hid, ⟨p, hp, hd⟩, ?_⟩
              intro prev hmem q hq
              exact hprev prev (List.mem_cons.mpr (Or.inr hmem)) q hq
            cases hpos : pos node.id with
            | none =>
                rw [findClickedNode_cons_nopos node rest pos x y hpos]
                exact htail
            | some q =>
                have hq : ¬ distance x y q < 15 :=
                  hprev node (List.mem_cons_self node pre₂) q hpos
                rw [findClickedNode_cons_pos node rest pos x y q hpos,
                  if_neg hq]
                exact htail

theorem handleClick_of_hit (nodes : List GraphNode) (pos : PositionMap)
    (selected : Option String) (x y : ℝ) (nid : String)
    (hfind : findClickedNode nodes pos x y = some nid) :
    handleClick nodes pos selected x y =
      if selected = some nid then none else some nid := by
  rw [handleClick, hfind]

theorem handleClick_of_miss (nodes : List GraphNode) (pos : PositionMap)
    (selected : Option String) (x y : ℝ)
    (hfind : findClickedNode nodes pos x y = none) :
    handleClick nodes pos selected x y = none := by
  rw [handleClick, hfind]

theorem findClickedNode_none_of_far (nodes : List GraphNode)
    (pos : PositionMap) (x y : ℝ)
    (h : ∀ node ∈ nodes, ∀ q, pos node.id = some q →
      ¬ distance x y q < 15) :
    findClickedNode nodes pos x y = none := by
  induction nodes with
  | nil => rfl
  | cons node rest ih =>
      cases hpos : pos node.id with
      | none =>
          rw [findClickedNode_cons_nopos node rest pos x y hpos]
          exact ih fun nd hnd q hq =>
            h nd (List.mem_cons.mpr (Or.inr hnd)) q hq
      | some p =>
          rw [findClickedNode_cons_pos node rest pos x y p hpos,
            if_neg (h node (List.mem_cons_self node rest) p hpos)]
          exact ih fun nd hnd q hq =>
            h nd (List.mem_cons.mpr (Or.inr hnd)) q hq

/-- C3: selection transitions of handleClick.  A hit on the currently
selected node clears the selection, a hit on any other node selects the
hit node, and a miss clears the selection whatever it was — in
particular a click at distance ≥ 15 from every positioned node yields
none unconditionally; consequently, when the hit-test at (x, y) finds v
and the prior selection differs from v, two consecutive clicks at
(x, y) yield some v and then none. -/
theorem handleClick_selection_transitions (nodes : List GraphNode)
    (pos : PositionMap) (x y : ℝ) (sel : Option String) :
    (∀ nid, findClickedNode nodes pos x y = some nid →
        handleClick nodes pos sel x y =
          if sel = some nid then none else some nid)
    ∧ (findClickedNode nodes pos x y = none →
        handleClick nodes pos sel x y = none)
    ∧ ((∀ node ∈ nodes, ∀ q, pos node.id = some q →
          ¬ distance x y q < 15) →
        handleClick nodes pos sel x y = none)
    ∧ (∀ v, findClickedNode nodes pos x y = some v → sel ≠ some v →
        handleClick nodes pos sel x y = some v
        ∧ handleClick nodes pos (handleClick nodes pos sel x y) x y
            = none) := by
  refine ⟨?_, ?_, ?_, ?_⟩
  · intro nid hfind
    exact handleClick_of_hit nodes pos sel x y nid hfind
  · intro hfind
    exact handleClick_of_miss nodes pos sel x y hfind
  · intro hfar
    exact handleClick_of_miss nodes pos sel x y
      (findClickedNode_none_of_far nodes pos x y hfar)
  · intro v hfind hne
    have h₁ : handleClick nodes pos sel x y = some v := by
      rw [handleClick_of_hit nodes pos sel x y v hfind, if_neg hne]
    refine ⟨h₁, ?_⟩
    rw [h₁, handleClick_of_hit nodes pos (some v) x y v hfind, if_pos rfl]

/-- A sample position map used by concrete witnesses: node id a sits at
(100, 100), nothing else has a position. -/
noncomputable def wPos : PositionMap :=
  fun k => if k = "a" then some ⟨100, 100⟩ else none

theorem distance_self_lt_fifteen (x y : ℝ) :
    distance x y ⟨x, y⟩ < 15 := by
  rw [distance]
  show Real.sqrt ((x - x) * (x - x) + (y - y) * (y - y)) < 15
  rw [show (x - x) * (x - x) + (y - y) * (y - y) = 0 by ring, Real.sqrt_zero]
  norm_num

theorem wPos_find : findClickedNode [wNode] wPos 100 100 = some "a" := by
  have hpos : wPos wNode.id = some ⟨100, 100⟩ := by
    rw [wPos, wNode]
    simp
  rw [findClickedNode_cons_pos wNode [] wPos 100 100 ⟨100, 100⟩ hpos,
    if_pos (distance_self_lt_fifteen 100 100)]
  rw [wNode]

/-- Witness for C3: clicking on the single node at its own position
selects it, and a second identical click toggles the selection off. -/
theorem handleClick_selection_transitions_witness :
    handleClick [wNode] wPos none 100 100 = some "a"
    ∧ handleClick [wNode] wPos (some "a") 100 100 = none := by
  have h := (handleClick_selection_transitions [wNode] wPos 100 100
    none).2.2.2 "a" wPos_find (by simp)
  have h₂ := h.2
  rw [h.1] at h₂
  exact ⟨h.1, h₂⟩

/-- A stale position map left over from a previous snapshot: node id a
at (1, 2). -/
noncomputable def wOldPos : PositionMap :=
  fun k => if k = "a" then some ⟨1, 2⟩ else none

/-- The empty snapshot. -/
def wEmptyGraph : GraphData := ⟨[], []⟩

/-- Counterexample to C4: when the empty snapshot becomes current while
a position from the previous snapshot is still held, the layout effect's
early return keeps that stale position; the resulting PositionMap still
maps id a and is not empty, contrary to the claim. -/
theorem empty_snapshot_not_empty_map :
    updatePositions wEmptyGraph wOldPos (fun _ => 0) "a" = some ⟨1, 2⟩
    ∧ updatePositions wEmptyGraph wOldPos (fun _ => 0) "a" ≠ none := by
  have h : updatePositions wEmptyGraph wOldPos (fun _ => 0) "a"
      = some ⟨1, 2⟩ := by
    rw [updatePositions]
    rw [if_pos (by rfl)]
    rw [wOldPos]
    simp
  exact ⟨h, by rw [h]; simp⟩

/-- C4 amended: when a snapshot with zero nodes becomes current, the
layout effect returns early and the previously held PositionMap is
retained unchanged (so it is empty only when nothing had ever been laid
out); the stale positions are not cleared. -/
theorem empty_snapshot_keeps_old_positions (g : GraphData)
    (old : PositionMap) (rand : ℕ → ℝ) (h : g.nodes.length = 0) :
    updatePositions g old rand = old := by
  rw [updatePositions, if_pos h]

/-- Witness for the amended C4: at the empty snapshot the held map is
returned as is. -/
theorem empty_snapshot_keeps_old_positions_witness :
    updatePositions wEmptyGraph wOldPos (fun _ => 0) = wOldPos :=
  empty_snapshot_keeps_old_positions wEmptyGraph wOldPos (fun _ => 0) rfl

/-- A react-query useQuery configuration as passed by the hooks:
staleTime in milliseconds, retry count, refetchOnWindowFocus flag. -/
structure QueryConfig where
  staleTime : ℕ
  retry : ℕ
  refetchOnWindowFocus : Bool

/-- The configuration passed by useBrainStats. -/
def useBrainStatsConfig : QueryConfig := ⟨30000, 1, false⟩

/-- The configuration passed by useGraph. -/
def useGraphConfig : QueryConfig := ⟨60000, 1, false⟩

/-- Counterexample to C5: the sibling statistics cache (useBrainStats)
uses a 30000 ms staleness window, not the graph cache's 60000 ms, so the
two hooks do not share the claimed 60-second policy. -/
theorem brainStats_staleTime_differs :
    useBrainStatsConfig.staleTime = 30000
    ∧ useGraphConfig.staleTime = 60000
    ∧ useBrainStatsConfig.staleTime ≠ useGraphConfig.staleTime := by
  refine ⟨rfl, rfl, ?_⟩
  rw [useBrainStatsConfig, useGraphConfig]
  simp

/-- C5 amended: the sibling statistics cache uses the same retry policy
as the graph cache (at most 1 retry) and the same refetch-on-focus
setting, but its freshness window is 30 seconds (30000 ms), half the
graph cache's 60 seconds (60000 ms). -/
theorem brainStats_policy :
    useBrainStatsConfig.retry = useGraphConfig.retry
    ∧ useBrainStatsConfig.retry = 1
    ∧ useBrainStatsConfig.refetchOnWindowFocus
        = useGraphConfig.refetchOnWindowFocus
    ∧ useBrainStatsConfig.staleTime = 30000
    ∧ useGraphConfig.staleTime = 60000
    ∧ useBrainStatsConfig.staleTime * 2 = useGraphConfig.staleTime := by
  exact ⟨rfl, rfl, rfl, rfl, rfl, rfl⟩

/-- A canvas draw command emitted by the render effect. -/
inductive DrawCmd where
  | fillRect (x y w h : ℝ) (color : String)
  | line (src tgt : Position)
  | circle (center : Position) (radius : ℝ) (fill : String)
  | outline (center : Position) (radius : ℝ) (color : String) (width : ℝ)
  | text (s : String) (x y : ℝ)

/-- The per-edge part of the draw pass: a straight line segment when
both endpoint ids have positions, nothing otherwise. -/
def edgeDraw (pos : PositionMap) (e : GraphEdge) : List DrawCmd :=
  match pos e.source, pos e.target with
  | some s, some t => [DrawCmd.line s t]
  | _, _ => []

/-- The edge loop of the draw pass over the snapshot's edges. -/
def edgeCommands (edges : List GraphEdge) (pos : PositionMap) :
    List DrawCmd :=
  edges.bind (edgeDraw pos)

/-- The fixed categorical palette keyed by node type, as the colors
record in the node loop. -/
def colors : List (String × String) :=
  [("Thought", "#6366f1"), ("Person", "#3b82f6"), ("Project", "#a855f7"),
   ("Topic", "#22c55e"), ("Entity", "#f59e0b")]

/-- Fill color lookup with the neutral-gray fallback, as
colors[node.type] || gray. -/
def nodeColor (t : String) : String :=
  (colors.lookup t).getD "#64748b"

/-- Node circle radius: 8 for a Thought node, 12 otherwise. -/
noncomputable def nodeRadius (t : String) : ℝ :=
  if t = "Thought" then 8 else 12

/-- The per-node part of the draw pass: skip a node with no position;
otherwise a filled circle, an outline stroke exactly when the node is
the selected one, and the label truncated to 15 characters below the
node. -/
noncomputable def nodeDraw (pos : PositionMap) (selected : Option String)
    (node : GraphNode) : List DrawCmd :=
  match pos node.id with
  | none => []
  | some p =>
      [DrawCmd.circle p (nodeRadius node.type) (nodeColor node.type)]
        ++ (if selected = some node.id
            then [DrawCmd.outline p (nodeRadius node.type) "#ffffff" 2]
            else [])
        ++ [DrawCmd.text (node.label.take 15) p.x
              (p.y + nodeRadius node.type + 12)]

/-- The full draw pass: background fill, then the edge loop, then the
node loop. -/
noncomputable def render (g : GraphData) (pos : PositionMap)
    (selected : Option String) : List DrawCmd :=
  DrawCmd.fillRect 0 0 canvasWidth canvasHeight "#0f172a"
    :: (edgeCommands g.edges pos ++ g.nodes.bind (nodeDraw pos selected))

/-- The node shown by the details panel:
graphData.nodes.find(n selected by id), none when nothing is selected
or the id is absent. -/
def selectedNodeData (g : GraphData) (selected : Option String) :
    Option GraphNode :=
  g.nodes.find? (fun n => selected = some n.id)

/-- C6: the edge loop draws, for each edge in order, exactly one line
segment between the two stored positions when both endpoint ids have
entries in the position map, and nothing at all when either endpoint is
missing; edgeDraw is a total function, so a dangling edge can never
fail the render. -/
theorem edgeDraw_eq_line (pos : PositionMap) (e : GraphEdge)
    (s t : Position) (hs : pos e.source = some s)
    (ht : pos e.target = some t) :
    edgeDraw pos e = [DrawCmd.line s t] := by
  rw [edgeDraw, hs, ht]

theorem edgeDraw_eq_nil (pos : PositionMap) (e : GraphEdge)
    (h : pos e.source = none ∨ pos e.target = none) :
    edgeDraw pos e = [] := by
  rcases h with h | h
  · rw [edgeDraw, h]
  · cases hs : pos e.source with
    | none => rw [edgeDraw, hs]
    | some s => rw [edgeDraw, hs, h]

theorem render_edges_one_segment (edges : List GraphEdge)
    (pos : PositionMap) :
    edgeCommands edges pos = edges.bind (edgeDraw pos)
    ∧ (∀ e s t, pos e.source = some s → pos e.target = some t →
        edgeDraw pos e = [DrawCmd.line s t])
    ∧ (∀ e, pos e.source = none ∨ pos e.target = none →
        edgeDraw pos e = []) := by
  exact ⟨rfl, edgeDraw_eq_line pos, edgeDraw_eq_nil pos⟩

/-- A sample edge between ids a and b, used by concrete witnesses. -/
def wEdge : GraphEdge := ⟨"a", "b", "rel"⟩

/-- A sample dangling edge: its target id has no node. -/
def wDanglingEdge : GraphEdge := ⟨"a", "missing", "rel"⟩

/-- A sample position map with positions for ids a and b. -/
noncomputable def wPosAB : PositionMap :=
  fun k =>
    if k = "a" then some ⟨1, 2⟩
    else if k = "b" then some ⟨3, 4⟩ else none

/-- Witness for C6: the a-to-b edge draws one segment between the two
stored positions, and the dangling edge draws nothing. -/
theorem render_edges_one_segment_witness :
    edgeDraw wPosAB wEdge = [DrawCmd.line ⟨1, 2⟩ ⟨3, 4⟩]
    ∧ edgeDraw wPos wDanglingEdge = [] :=
  ⟨(render_edges_one_segment [] wPosAB).2.1 wEdge ⟨1, 2⟩ ⟨3, 4⟩
      (by rw [wPosAB]; simp [wEdge]) (by rw [wPosAB]; simp [wEdge]),
    (render_edges_one_segment [] wPos).2.2 wDanglingEdge
      (Or.inr (by rw [wPos]; simp [wDanglingEdge]))⟩

/-- C7: the node circle radius is 8 exactly when the node's type is
Thought and 12 exactly otherwise; the fill color is the palette entry
for the five known types and the fixed neutral gray for every other
type string — the lookup is total and never fails. -/
theorem node_radius_and_color (t : String) :
    (nodeRadius t = 8 ↔ t = "Thought")
    ∧ (nodeRadius t = 12 ↔ t ≠ "Thought")
    ∧ (∀ c, (t, c) ∈ colors → nodeColor t = c)
    ∧ (t ∉ colors.map Prod.fst → nodeColor t = "#64748b") := by
  refine ⟨?_, ?_, ?_, ?_⟩
  · constructor
    · intro h8
      by_contra hne
      rw [nodeRadius, if_neg hne] at h8
      norm_num at h8
    · intro h
      rw [nodeRadius, if_pos h]
  · constructor
    · intro h12 heq
      rw [nodeRadius, if_pos heq] at h12
      norm_num at h12
    · intro hne
      rw [nodeRadius, if_neg hne]
  · intro c hc
    simp only [colors, List.mem_cons, List.not_mem_nil, or_false] at hc
    rcases hc with h | h | h | h | h <;>
      (rw [Prod.mk.injEq] at h; obtain ⟨rfl, rfl⟩ := h; decide)
  · intro hmem
    simp only [colors, List.map_cons, List.map_nil, List.mem_cons,
      List.not_mem_nil, or_false, not_or] at hmem
    obtain ⟨h1, h2, h3, h4, h5⟩ := hmem
    rw [nodeColor, colors]
    have e1 : (t == "Thought") = false := beq_eq_false_iff_ne.mpr h1
    have e2 : (t == "Person") = false := beq_eq_false_iff_ne.mpr h2
    have e3 : (t == "Project") = false := beq_eq_false_iff_ne.mpr h3
    have e4 : (t == "Topic") = false := beq_eq_false_iff_ne.mpr h4
    have e5 : (t == "Entity") = false := beq_eq_false_iff_ne.mpr h5
    simp [List.lookup, e1, e2, e3, e4, e5]

/-- Witness for C7: a Thought node is drawn with the Thought palette
color, a Person node has radius 12, and an unknown type string gets the
neutral gray without failing. -/
theorem node_radius_and_color_witness :
    nodeColor "Thought" = "#6366f1"
    ∧ nodeRadius "Person" = 12
    ∧ nodeColor "Banana" = "#64748b" :=
  ⟨(node_radius_and_color "Thought").2.2.1 "#6366f1" (by decide),
    (node_radius_and_color "Person").2.1.mpr (by decide),
    (node_radius_and_color "Banana").2.2.2 (by decide)⟩

/-- Modelled from the spec: the staleness core of the query cache (the
react-query library the hooks configure is not part of this repository).
A cached resource holds the time of its last successful fetch, if any,
and an invalidation flag set by invalidateQueries. -/
structure CacheState where
  fetchedAt : Option ℕ
  invalid : Bool

/-- Modelled from the spec: a cached value is stale when it was never
fetched, when it has been explicitly invalidated, or when the staleness
window has elapsed since the fetch. -/
def isStale (staleWindow now : ℕ) (c : CacheState) : Bool :=
  match c.fetchedAt with
  | none => true
  | some t => c.invalid || decide (t + staleWindow ≤ now)

/-- Modelled from the spec: an access (render or mount of a consumer)
triggers a fetch exactly when the cached value is stale; a successful
fetch stores the access time and clears the invalidation flag.  The
returned Boolean says whether a fetch was triggered. -/
def access (staleWindow now : ℕ) (c : CacheState) : Bool × CacheState :=
  if isStale staleWindow now c then (true, ⟨some now, false⟩) else (false, c)

/-- The graph staleness window in seconds, from the useGraph
configuration (staleTime is in milliseconds). -/
def graphStaleWindow : ℕ := useGraphConfig.staleTime / 1000

/-- Modelled from the spec: queryClient.invalidateQueries marks the
cached resource as force-expired without touching its contents. -/
def invalidateCache (c : CacheState) : CacheState := ⟨c.fetchedAt, true⟩

/-- The two caches the think workflow invalidates. -/
structure Caches where
  graph : CacheState
  stats : CacheState

/-- A thought-processing response, as the ThoughtResponse interface
(fields beyond the id and reply text are irrelevant here). -/
structure ThoughtResponse where
  thought_id : String
  response : String

/-- The effect of the think function on the two caches: on a successful
processThought both the graph query and the brainStats query are
invalidated; on a failure the error is rethrown and no cache is
touched. -/
def thinkEffect (outcome : Except String ThoughtResponse) (cs : Caches) :
    Caches :=
  match outcome with
  | Except.ok _ => ⟨invalidateCache cs.graph, invalidateCache cs.stats⟩
  | Except.error _ => cs

/-- C8: with the 60-second window from the useGraph configuration, a
fresh successful fetch at time t is not refetched at t + 59 but is at
t + 61; a never-fetched cache always fetches on first access, an
invalidated cache always fetches, and an un-invalidated cache fetches
exactly when the window has elapsed (so a mere re-render inside the
window never refetches); refetch-on-window-focus is disabled in the
configuration. -/
theorem graph_cache_freshness (t : ℕ) :
    graphStaleWindow = 60
    ∧ (access graphStaleWindow (t + 59) ⟨some t, false⟩).1 = false
    ∧ (access graphStaleWindow (t + 61) ⟨some t, false⟩).1 = true
    ∧ (∀ now b, (access graphStaleWindow now ⟨none, b⟩).1 = true)
    ∧ (∀ now u, (access graphStaleWindow now ⟨some u, true⟩).1 = true)
    ∧ (∀ now u, (access graphStaleWindow now ⟨some u, false⟩).1 =
        decide (u + graphStaleWindow ≤ now))
    ∧ useGraphConfig.refetchOnWindowFocus = false := by
  have hw : graphStaleWindow = 60 := rfl
  refine ⟨hw, ?_, ?_, ?_, ?_, ?_, rfl⟩
  · rw [access, isStale]
    simp only [hw, Bool.false_or]
    rw [if_neg (by simp)]
  · rw [access, isStale]
    simp only [hw, Bool.false_or]
    rw [if_pos (by simp)]
  · intro now b
    rw [access, isStale]
    simp
  · intro now u
    rw [access, isStale]
    simp
  · intro now u
    rw [access, isStale]
    simp only [Bool.false_or]
    by_cases h : u + graphStaleWindow ≤ now
    · rw [if_pos (by simp [h]), decide_eq_true h]
    · rw [if_neg (by simp [h])]
      simp [h]

/-- C9: a successful think invalidates both the graph cache and the
statistics cache, and any access to an invalidated cache triggers a
fetch no matter how recently it was fetched (so the next graph access
refetches even inside the freshness window); a failed think leaves both
caches exactly as they were. -/
theorem think_invalidation (cs : Caches) :
    (∀ r, thinkEffect (Except.ok r) cs =
        ⟨invalidateCache cs.graph, invalidateCache cs.stats⟩)
    ∧ (∀ e, thinkEffect (Except.error e) cs = cs)
    ∧ (∀ c staleWindow now,
        (access staleWindow now (invalidateCache c)).1 = true) := by
  refine ⟨fun r => rfl, fun e => rfl, ?_⟩
  intro c staleWindow now
  rw [invalidateCache, access, isStale]
  cases c.fetchedAt with
  | none => simp
  | some u => simp

/-- The GraphVisualizer component state: the node-position Map and the
selected-node id, as the two useState cells. -/
structure VizState where
  positions : PositionMap
  selected : Option String

/-- A new snapshot landing: the layout effect recomputes the positions
(subject to its empty-snapshot guard); nothing else runs. -/
noncomputable def onSnapshot (g : GraphData) (rand : ℕ → ℝ)
    (s : VizState) : VizState :=
  ⟨updatePositions g s.positions rand, s.selected⟩

/-- A pointer event: handleClick updates the selection against the
current snapshot and positions; the positions are untouched. -/
noncomputable def onPointer (g : GraphData) (x y : ℝ) (s : VizState) :
    VizState :=
  ⟨s.positions, handleClick g.nodes s.positions s.selected x y⟩

theorem nodeDraw_nopos (pos : PositionMap) (selected : Option String)
    (node : GraphNode) (hpos : pos node.id = none) :
    nodeDraw pos selected node = [] := by
  rw [nodeDraw, hpos]

theorem nodeDraw_pos (pos : PositionMap) (selected : Option String)
    (node : GraphNode) (p : Position) (hpos : pos node.id = some p) :
    nodeDraw pos selected node =
      [DrawCmd.circle p (nodeRadius node.type) (nodeColor node.type)]
        ++ (if selected = some node.id
            then [DrawCmd.outline p (nodeRadius node.type) "#ffffff" 2]
            else [])
        ++ [DrawCmd.text (node.label.take 15) p.x
              (p.y + nodeRadius node.type + 12)] := by
  rw [nodeDraw, hpos]

theorem edgeDraw_no_outline (pos : PositionMap) (e : GraphEdge)
    (p : Position) (r : ℝ) (c : String) (w : ℝ) :
    DrawCmd.outline p r c w ∉ edgeDraw pos e := by
  cases hs : pos e.source with
  | none =>
      rw [edgeDraw_eq_nil pos e (Or.inl hs)]
      exact List.not_mem_nil _
  | some s =>
      cases ht : pos e.target with
      | none =>
          rw [edgeDraw_eq_nil pos e (Or.inr ht)]
          exact List.not_mem_nil _
      | some t =>
          rw [edgeDraw_eq_line pos e s t hs ht]
          simp

theorem nodeDraw_outline_selected (pos : PositionMap)
    (selected : Option String) (node : GraphNode) (p : Position) (r : ℝ)
    (c : String) (w : ℝ)
    (hmem : DrawCmd.outline p r c w ∈ nodeDraw pos selected node) :
    selected = some node.id := by
  cases hpos : pos node.id with
  | none =>
      rw [nodeDraw_nopos pos selected node hpos] at hmem
      exact absurd hmem (List.not_mem_nil _)
  | some q =>
      rw [nodeDraw_pos pos selected node q hpos] at hmem
      by_cases hsel : selected = some node.id
      · exact hsel
      · rw [if_neg hsel] at hmem
        simp at hmem

/-- C10: a new snapshot landing never modifies the selection: the
selected id survives the snapshot replacement unchanged; and when that
id names no node of the new snapshot, the subsequent render draws no
selection outline and the details panel lookup yields nothing — the
selection is only ever changed by a pointer event through handleClick. -/
theorem snapshot_preserves_selection (g : GraphData) (rand : ℕ → ℝ)
    (s : VizState) :
    (onSnapshot g rand s).selected = s.selected
    ∧ (∀ nid, s.selected = some nid → nid ∉ g.nodes.map GraphNode.id →
        (∀ p r c w, DrawCmd.outline p r c w ∉
            render g (onSnapshot g rand s).positions
              (onSnapshot g rand s).selected)
        ∧ selectedNodeData g (onSnapshot g rand s).selected = none) := by
  refine ⟨rfl, ?_⟩
  intro nid hsel hmem
  have hsel₂ : (onSnapshot g rand s).selected = some nid := hsel
  constructor
  · intro p r c w hin
    rw [render] at hin
    rcases List.mem_cons.mp hin with h | h
    · exact DrawCmd.noConfusion h
    · rcases List.mem_append.mp h with h | h
      · rw [edgeCommands] at h
        obtain ⟨e, _, hine⟩ := List.mem_bind.mp h
        exact edgeDraw_no_outline _ e p r c w hine
      · obtain ⟨node, hnode, hinn⟩ := List.mem_bind.mp h
        have hid : (onSnapshot g rand s).selected = some node.id :=
          nodeDraw_outline_selected _ _ node p r c w hinn
        rw [hsel₂] at hid
        have : nid = node.id := (Option.some.injEq _ _).mp hid
        rw [this] at hmem
        exact hmem (List.mem_map_of_mem GraphNode.id hnode)
  · rw [selectedNodeData, hsel₂]
    apply List.find?_eq_none.mpr
    intro n hn
    simp only [decide_eq_true_eq, Option.some.injEq]
    intro heq
    rw [heq] at hmem
    exact hmem (List.mem_map_of_mem GraphNode.id hn)

/-- A sample snapshot: the single node a and one edge. -/
def wGraph : GraphData := ⟨[wNode], [wEdge]⟩

/-- A component state holding stale positions and a selection whose id
does not occur in wGraph. -/
noncomputable def wState : VizState := ⟨wOldPos, some "zzz"⟩

/-- Witness for C10: the selection survives the snapshot replacement
even though its id names no node, and the details lookup then yields
nothing. -/
theorem snapshot_preserves_selection_witness :
    (onSnapshot wGraph (fun _ => 0) wState).selected = some "zzz"
    ∧ selectedNodeData wGraph
        (onSnapshot wGraph (fun _ => 0) wState).selected = none := by
  have h := snapshot_preserves_selection wGraph (fun _ => 0) wState
  have hmem : "zzz" ∉ wGraph.nodes.map GraphNode.id := by
    rw [wGraph]
    simp [wNode]
  exact ⟨h.1, (h.2 "zzz" rfl hmem).2⟩

/-- Witness for C2: on the single-node snapshot, a click exactly on node
a's stored position is resolved to a with the empty prefix split. -/
theorem findClickedNode_first_match_witness :
    findClickedNode [wNode] wPos 100 100 = some "a" :=
  (findClickedNode_first_match [wNode] wPos 100 100 "a").mpr
    ⟨[], wNode, [], rfl, rfl,
      ⟨⟨100, 100⟩, by rw [wPos, wNode]; simp,
        distance_self_lt_fifteen 100 100⟩,
      by simp⟩

/-- Witness for C8: after a fetch at time 0, the access at 59 does not
fetch and the access at 61 does. -/
theorem graph_cache_freshness_witness :
    (access graphStaleWindow 59 ⟨some 0, false⟩).1 = false
    ∧ (access graphStaleWindow 61 ⟨some 0, false⟩).1 = true :=
  ⟨(graph_cache_freshness 0).2.1, (graph_cache_freshness 0).2.2.1⟩

/-- Witness for C9: a failed think leaves a fresh pair of caches
untouched, and an invalidated cache fetches on the very next access. -/
theorem think_invalidation_witness :
    thinkEffect (Except.error "boom")
        ⟨⟨some 5, false⟩, ⟨some 5, false⟩⟩ =
      ⟨⟨some 5, false⟩, ⟨some 5, false⟩⟩
    ∧ (access 60 10 (invalidateCache ⟨some 5, false⟩)).1 = true :=
  ⟨(think_invalidation ⟨⟨some 5, false⟩, ⟨some 5, false⟩⟩).2.1 "boom",
    (think_invalidation ⟨⟨some 5, false⟩, ⟨some 5, false⟩⟩).2.2
      ⟨some 5, false⟩ 60 10⟩
